import Mathlib

/-!
Shallow embedding of the conversation store in
src/src/main/services/database.ts (class DatabaseService), together with
proofs about its behaviour.

Strings are modelled as Lean strings (lists of characters); database rows
are records; the SQLite tables are lists of rows.  The external tokenizer
and the query executor are function parameters.  SQLite connection state
that the code consults (sqlite3_changes and sqlite3_last_insert_rowid) is
threaded through the state explicitly, following the documented SQLite
semantics: changes() counts rows touched by the DO UPDATE arm of an upsert
as well, and last_insert_rowid() is only moved by an actual INSERT into a
rowid table or virtual table, so it is stale on the update arm.
-/

namespace ElectronAIBrowser

/- ---------------------------------------------------------------------
   JavaScript string primitives used by generateSnippet (database.ts
   lines 277 to 327).  All of them work on lists of characters.
   --------------------------------------------------------------------- -/

/-- JS `hay.indexOf(needle)` (exact match), `none` standing for -1. -/
def jsIndexOf (needle : List Char) : List Char → Option Nat
  | [] => if needle.isPrefixOf ([] : List Char) then some 0 else none
  | c :: t =>
    if needle.isPrefixOf (c :: t) then some 0
    else (jsIndexOf needle t).map (· + 1)

/-- JS `cs.lastIndexOf(' ', pos)`: the largest index of a space that is
at most `pos`, `none` standing for -1. -/
def lastIndexOfSpace (cs : List Char) (pos : Nat) : Option Nat :=
  (List.range (min (pos + 1) cs.length)).reverse.find? (fun i => cs.get? i == some ' ')

/-- JS `cs.indexOf(' ', pos)`: the smallest index of a space that is at
least `pos`, `none` standing for -1. -/
def indexOfSpaceFrom (cs : List Char) (pos : Nat) : Option Nat :=
  (List.range cs.length).find? (fun i => decide (pos ≤ i) && (cs.get? i == some ' '))

/-- Case-insensitive prefix test, the behaviour of the regex `i` flag
restricted to simple lowering of characters. -/
def startsWithCI : List Char → List Char → Bool
  | [], _ => true
  | _ :: _, [] => false
  | p :: ps, c :: cs => (p.toLower == c.toLower) && startsWithCI ps cs

/-- The opening highlight marker of database.ts line 319. -/
def hlOpen : List Char :=
  ("<b class=\"text-yellow-500 font-bold bg-yellow-100 dark:bg-yellow-900/30 px-1 rounded\">").toList

/-- The closing highlight marker of database.ts line 319. -/
def hlClose : List Char := ("</b>").toList

/-- One global, case-insensitive replacement pass for a nonempty pattern
`p :: ps`: every non-overlapping occurrence, scanning left to right, is
wrapped in the highlight marker, keeping the matched text itself (the
regex capture `$1` of the source).  The extra `Nat` is fuel, kept equal to
the length of the text by the caller so that the recursion is structural;
every step consumes at least one character, so the fuel never runs out. -/
def wrapCIGo (p : Char) (ps : List Char) : Nat → List Char → List Char
  | _, [] => []
  | 0, l => l
  | fuel + 1, c :: cs =>
    if startsWithCI (p :: ps) (c :: cs) then
      hlOpen ++ (c :: cs.take ps.length) ++ hlClose ++ wrapCIGo p ps fuel (cs.drop ps.length)
    else
      c :: wrapCIGo p ps fuel cs

/-- A JS regex built from the empty pattern with the `g` flag matches the
empty string once at every position, so the replacement marker is inserted
at every gap of the text. -/
def emptyPatGaps : List Char → List Char
  | [] => hlOpen ++ hlClose
  | c :: cs => hlOpen ++ hlClose ++ c :: emptyPatGaps cs

/-- The statement `snippet.replace(new RegExp(keyword, gi), marker)` for one keyword
(database.ts lines 317 to 320), for keywords without regex metacharacters. -/
def wrapCI (text : List Char) (kw : List Char) : List Char :=
  match kw with
  | [] => emptyPatGaps text
  | p :: ps => wrapCIGo p ps text.length text

/-- The highlighting loop of database.ts lines 317 to 320: one global
case-insensitive pass per keyword, each pass running over the output of
the previous one. -/
def highlightAll (keywords : List String) (text : List Char) : List Char :=
  keywords.foldl (fun acc kw => wrapCI acc kw.toList) text

/-- The scan of database.ts lines 281 to 291: the earliest-occurring
keyword in the lowered content, together with its index; on equal indices
the first keyword of the list wins (the source uses a strict comparison). -/
def findFirstMatch (lowerContent : List Char) (keywords : List String) : Option (Nat × String) :=
  keywords.foldl
    (fun acc kw =>
      match jsIndexOf (kw.toList.map Char.toLower) lowerContent with
      | none => acc
      | some i =>
        match acc with
        | none => some (i, kw)
        | some (fi, mk) => if i < fi then some (i, kw) else some (fi, mk))
    none

/-- The ellipsis that the source appends and prepends. -/
def ellipsis : List Char := ("...").toList

/-- The start bound of the snippet window (database.ts lines 300 and
304 to 307): `Math.max(0, firstIndex - halfLength)` (natural subtraction
performs the clamp), then snapped forward past a preceding space when that
space is within 20 characters. -/
def snippetStart (cs : List Char) (firstIndex halfLength : Nat) : Nat :=
  let start := firstIndex - halfLength
  if 0 < start then
    match lastIndexOfSpace cs start with
    | some si => if 0 < si ∧ start - si < 20 then si + 1 else start
    | none => start
  else start

/-- The end bound of the snippet window (database.ts lines 301 and
309 to 312): `Math.min(length, firstIndex + keyword.length + halfLength)`,
then snapped forward to a following space when that space is within 20
characters. -/
def snippetEnd (cs : List Char) (firstIndex kwLen halfLength : Nat) : Nat :=
  let e := min cs.length (firstIndex + kwLen + halfLength)
  if e < cs.length then
    match indexOfSpaceFrom cs e with
    | some si => if 0 < si ∧ si - e < 20 then si else e
    | none => e
  else e

/-- generateSnippet of database.ts lines 277 to 327. -/
def generateSnippet (content : String) (keywords : List String) (maxLength : Nat) : String :=
  if content = "" then ""
  else
    let cs := content.toList
    let lowerContent := cs.map Char.toLower
    match findFirstMatch lowerContent keywords with
    | none =>
      String.mk (cs.take maxLength ++ (if maxLength < cs.length then ellipsis else []))
    | some (firstIndex, matchedKeyword) =>
      let halfLength := maxLength / 2
      let s := snippetStart cs firstIndex halfLength
      let e := snippetEnd cs firstIndex matchedKeyword.toList.length halfLength
      let window := (cs.take e).drop s
      let highlighted := highlightAll keywords window
      String.mk
        ((if 0 < s then ellipsis else []) ++ highlighted
          ++ (if e < cs.length then ellipsis else []))

/- ---------------------------------------------------------------------
   Data model: the two row stores and the FTS index of initSchema
   (database.ts lines 22 to 64), plus the SQLite connection state the
   code consults.
   --------------------------------------------------------------------- -/

/-- A row of conversations_v2. -/
structure ConvRow where
  rowid : Nat
  id : String
  platform : String
  title : String
  url : String
  created_at : String
  updated_at : String
  message_count : Nat
deriving DecidableEq, Repr

/-- A row of messages_v2. -/
structure MsgRow where
  rowid : Nat
  id : String
  conversation_id : String
  sender : String
  content : String
  thinking : String
  position : Int
  created_at : String
  updated_at : String
deriving DecidableEq, Repr

/-- A row of the external-content FTS index messages_fts_index; a plain
INSERT appends a row even when the rowid already appears (FTS5 does not
check external content for duplicates). -/
structure FtsRow where
  rowid : Nat
  tokens : String
deriving DecidableEq, Repr

/-- The stored state plus the per-table rowid counters and the
per-connection last_insert_rowid. -/
structure DbState where
  conversations : List ConvRow
  messages : List MsgRow
  fts : List FtsRow
  convNextRowid : Nat
  msgNextRowid : Nat
  lastInsertRowid : Nat
deriving DecidableEq, Repr

/-- The message record handed to saveConversation (preload types). -/
structure Message where
  messageId : String
  sender : String
  content : String
  thinking : Option String
  position : Int
  createdAt : String
  updatedAt : String
deriving DecidableEq, Repr

/-- The conversation record handed to saveConversation and returned by
getConversation (preload types). -/
structure Conversation where
  id : String
  platform : String
  title : String
  url : String
  createdAt : String
  updatedAt : String
  messageCount : Nat
  messages : List Message
deriving DecidableEq, Repr

/-- Faults of the storage layer (thrown by better-sqlite3) or of the
external tokenizer. -/
inductive DbErr where
  | storageFault
  | tokenizeFault
  | queryFault
deriving DecidableEq, Repr

/-- Equality of thrown-or-returned outcomes is decidable when both sides
are. -/
instance exceptDecEq {ε α : Type} [DecidableEq ε] [DecidableEq α] :
    DecidableEq (Except ε α) := fun x y =>
  match x, y with
  | .ok a, .ok b =>
    if h : a = b then isTrue (by rw [h])
    else isFalse (fun hh => by cases hh; exact h rfl)
  | .error a, .error b =>
    if h : a = b then isTrue (by rw [h])
    else isFalse (fun hh => by cases hh; exact h rfl)
  | .ok _, .error _ => isFalse (fun hh => by cases hh)
  | .error _, .ok _ => isFalse (fun hh => by cases hh)

/-- The info object returned by Statement.run: sqlite3_changes and
sqlite3_last_insert_rowid read after the statement. -/
structure RunInfo where
  changes : Nat
  lastInsertRowid : Nat
deriving DecidableEq, Repr

/-- Fault injection for the three kinds of writes inside
saveConversation: the conversation upsert, a message upsert (selected by
message id), and an FTS insert (selected by rowid). -/
structure Faults where
  convFault : Bool
  msgFault : String → Bool
  ftsFault : Nat → Bool

/-- The fault-free storage layer. -/
def noFaults : Faults :=
  { convFault := false, msgFault := fun _ => false, ftsFault := fun _ => false }

/-- The result value of saveConversation, the object with status ok. -/
inductive SaveStatus where
  | statusOk
deriving DecidableEq, Repr

/-- Row lookup by primary key in conversations_v2. -/
def findConvRow (l : List ConvRow) (id : String) : Option ConvRow :=
  l.find? (fun r => r.id == id)

/-- Row lookup by primary key in messages_v2. -/
def findMsgRow (l : List MsgRow) (id : String) : Option MsgRow :=
  l.find? (fun r => r.id == id)

/- ---------------------------------------------------------------------
   saveConversation (database.ts lines 68 to 136)
   --------------------------------------------------------------------- -/

/-- The conversation upsert of lines 71 to 87: INSERT with
ON CONFLICT(id) DO UPDATE SET title, url, updated_at, message_count.
The update arm leaves platform and created_at untouched; the insert arm
allocates a rowid and moves last_insert_rowid. -/
def upsertConversation (s : DbState) (c : Conversation) : DbState :=
  match findConvRow s.conversations c.id with
  | some _ =>
    { s with
        conversations := s.conversations.map (fun r =>
          if r.id == c.id then
            { r with title := c.title, url := c.url,
                     updated_at := c.updatedAt,
                     message_count := c.messages.length }
          else r) }
  | none =>
    let rid := s.convNextRowid
    { s with
        conversations := s.conversations ++
          [{ rowid := rid, id := c.id, platform := c.platform, title := c.title,
             url := c.url, created_at := c.createdAt, updated_at := c.updatedAt,
             message_count := c.messages.length }],
        convNextRowid := rid + 1,
        lastInsertRowid := rid }

/-- The update arm of the message upsert (lines 93 to 97): content,
thinking, position, updated_at only; `msg.thinking || ''` is the
JavaScript falsy default. -/
def updatedMsgRow (r : MsgRow) (m : Message) : MsgRow :=
  { r with content := m.content, thinking := m.thinking.getD "",
           position := m.position, updated_at := m.updatedAt }

/-- insertMsg.run of lines 90 to 112.  On the insert arm a fresh rowid is
allocated and last_insert_rowid moves to it; on the DO UPDATE arm
sqlite3_changes still reports 1 but last_insert_rowid keeps its previous
value, which is what the info object hands back to line 117. -/
def runInsertMsg (s : DbState) (convId : String) (m : Message) : DbState × RunInfo :=
  match findMsgRow s.messages m.messageId with
  | some _ =>
    ({ s with
        messages := s.messages.map (fun r =>
          if r.id == m.messageId then updatedMsgRow r m else r) },
     { changes := 1, lastInsertRowid := s.lastInsertRowid })
  | none =>
    let rid := s.msgNextRowid
    ({ s with
        messages := s.messages ++
          [{ rowid := rid, id := m.messageId, conversation_id := convId,
             sender := m.sender, content := m.content,
             thinking := m.thinking.getD "", position := m.position,
             created_at := m.createdAt, updated_at := m.updatedAt }],
        msgNextRowid := rid + 1,
        lastInsertRowid := rid },
     { changes := 1, lastInsertRowid := rid })

/-- `INSERT INTO messages_fts_index (rowid, tokens) VALUES (?, ?)` of
line 120: appends an index row; an INSERT into a virtual table moves
last_insert_rowid. -/
def insertFts (s : DbState) (rid : Nat) (tokens : String) : DbState :=
  { s with fts := s.fts ++ [{ rowid := rid, tokens := tokens }],
           lastInsertRowid := rid }

/-- The message loop of lines 102 to 125, inside the transaction: upsert
each message; when `result.changes > 0 && result.lastInsertRowid` (the
latter truthy, that is nonzero) tokenize the content and insert an FTS
row at that rowid.  A thrown tokenizer error or storage fault aborts the
whole body. -/
def saveMessagesBody (f : Faults) (tok : String → Except DbErr String) (convId : String) :
    DbState → List Message → Except DbErr DbState
  | s, [] => .ok s
  | s, m :: rest =>
    if f.msgFault m.messageId then .error .storageFault
    else
      if 0 < (runInsertMsg s convId m).2.changes
          ∧ (runInsertMsg s convId m).2.lastInsertRowid ≠ 0 then
        match tok m.content with
        | .error e => .error e
        | .ok tokens =>
          if f.ftsFault (runInsertMsg s convId m).2.lastInsertRowid then .error .storageFault
          else
            saveMessagesBody f tok convId
              (insertFts (runInsertMsg s convId m).1
                (runInsertMsg s convId m).2.lastInsertRowid tokens) rest
      else saveMessagesBody f tok convId (runInsertMsg s convId m).1 rest

/-- saveConversation of lines 68 to 136: the whole body runs as one
better-sqlite3 transaction; on any thrown error the transaction is rolled
back and the error is rethrown, otherwise the ok status is returned. -/
def saveConversation (f : Faults) (tok : String → Except DbErr String)
    (s : DbState) (c : Conversation) : DbState × Except DbErr SaveStatus :=
  match (if f.convFault then Except.error DbErr.storageFault
         else saveMessagesBody f tok c.id (upsertConversation s c) c.messages) with
  | .ok s1 => (s1, .ok .statusOk)
  | .error e => (s, .error e)

/- ---------------------------------------------------------------------
   getConversation (database.ts lines 138 to 165)
   --------------------------------------------------------------------- -/

/-- The row-to-record mapping of lines 155 to 163. -/
def msgRowToMessage (r : MsgRow) : Message :=
  { messageId := r.id, sender := r.sender, content := r.content,
    thinking := some r.thinking, position := r.position,
    createdAt := r.created_at, updatedAt := r.updated_at }

/-- Ordered insertion by position, the building block of the embedding of
ORDER BY position ASC. -/
def insertByPos (m : MsgRow) : List MsgRow → List MsgRow
  | [] => [m]
  | x :: xs => if m.position ≤ x.position then m :: x :: xs else x :: insertByPos m xs

/-- ORDER BY position ASC (insertion sort; SQLite fixes no order among
equal keys, any stable sort is a faithful embedding). -/
def sortByPos : List MsgRow → List MsgRow
  | [] => []
  | x :: xs => insertByPos x (sortByPos xs)

/-- getConversation of lines 138 to 165: `null` for a missing id,
otherwise the conversation row with its messages ordered ascending by
position. -/
def getConversation (s : DbState) (id : String) : Option Conversation :=
  match findConvRow s.conversations id with
  | none => none
  | some conv =>
    let rows := s.messages.filter (fun r => r.conversation_id == id)
    some { id := conv.id, platform := conv.platform, title := conv.title,
           url := conv.url, createdAt := conv.created_at,
           updatedAt := conv.updated_at, messageCount := conv.message_count,
           messages := (sortByPos rows).map msgRowToMessage }

/- ---------------------------------------------------------------------
   reindexMessages (database.ts lines 389 to 410)
   --------------------------------------------------------------------- -/

/-- `INSERT OR REPLACE INTO messages_fts_index (rowid, tokens)` of
line 393: drops any previous index rows at that rowid and appends the new
one. -/
def insertOrReplaceFts (s : DbState) (rid : Nat) (tokens : String) : DbState :=
  { s with
      fts := (s.fts.filter (fun r => r.rowid != rid)) ++ [{ rowid := rid, tokens := tokens }],
      lastInsertRowid := rid }

/-- The transaction body of lines 395 to 400: tokenize every message and
insert-or-replace its index row; a thrown tokenizer error aborts the
body, there is no per-row recovery. -/
def reindexBody (tok : String → Except DbErr String) :
    DbState → List (Nat × String) → Except DbErr DbState
  | s, [] => .ok s
  | s, (rid, content) :: rest =>
    match tok content with
    | .error e => .error e
    | .ok tokens => reindexBody tok (insertOrReplaceFts s rid tokens) rest

/-- The result object of line 405. -/
structure ReindexResult where
  success : Bool
  count : Nat
deriving DecidableEq, Repr

/-- reindexMessages of lines 389 to 410: read all rows, run the body as
one transaction, return `{ success: true, count: messages.length }`; on a
thrown error the transaction is rolled back and the error is rethrown. -/
def reindexMessages (tok : String → Except DbErr String) (s : DbState) :
    DbState × Except DbErr ReindexResult :=
  match reindexBody tok s (s.messages.map (fun m => (m.rowid, m.content))) with
  | .ok s1 =>
    (s1, .ok { success := true,
               count := (s.messages.map (fun m => (m.rowid, m.content))).length })
  | .error e => (s, .error e)

/- ---------------------------------------------------------------------
   advancedSearch (database.ts lines 190 to 272)
   --------------------------------------------------------------------- -/

/-- The date range filter; the second field is named end in the source,
which is a reserved word here. -/
structure DateRange where
  start : String
  stop : String
deriving DecidableEq, Repr

/-- The optional filters of the query object. -/
structure SearchFilters where
  platform : Option (List String)
  dateRange : Option DateRange
  sender : Option String
deriving DecidableEq, Repr

/-- The optional pagination of the query object. -/
structure SearchOptions where
  limit : Option Int
  offset : Option Int
deriving DecidableEq, Repr

/-- The query object handed to advancedSearch. -/
structure SearchQuery where
  keyword : String
  filters : Option SearchFilters
  options : Option SearchOptions
deriving DecidableEq, Repr

/-- The named parameters bound when the statement is executed; the stop
field is bound under the name end in the source. -/
structure SqlParams where
  matchQuery : String
  start : Option String
  stop : Option String
  sender : Option String
  limit : Int
  offset : Int
deriving DecidableEq, Repr

/-- A row of the SELECT of lines 206 to 214. -/
structure SearchRow where
  id : String
  content : String
  thinking : String
  created_at : String
  sender : String
  platform : String
  title : String
  conversation_id : String
deriving DecidableEq, Repr

/-- A result row spread together with its snippet (line 266). -/
structure SearchHit where
  row : SearchRow
  snippet : String
deriving DecidableEq, Repr

/-- The match expression of lines 200 to 202: every token quoted with a
trailing wildcard, joined by OR. -/
def buildMatchQuery (tokens : String) : String :=
  String.intercalate " OR " ((tokens.splitOn " ").map (fun t => "\"" ++ t ++ "\"*"))

/-- The fixed SELECT of lines 206 to 214, flattened to one line. -/
def baseSql : String :=
  "SELECT m.id, m.content, m.thinking, m.created_at, m.sender, c.platform, c.title, c.id as conversation_id FROM messages_fts_index fts JOIN messages_v2 m ON m.rowid = fts.rowid JOIN conversations_v2 c ON m.conversation_id = c.id WHERE messages_fts_index MATCH @matchQuery"

/-- The interpolated platform list of line 232 (each value wrapped in
single quotes and joined by commas, with no escaping — the injection
surface the spec flags). -/
def platformInList (ps : List String) : String :=
  String.intercalate "," (ps.map (fun p => "\x27" ++ p ++ "\x27"))

/-- The dynamic SQL construction of lines 206 to 248: each filter clause
is appended only when the corresponding field is present (and truthy: an
empty platform array and an empty sender string are skipped), then the
pagination tail. -/
def buildSql (q : SearchQuery) : String :=
  let sql0 := baseSql
  let sql1 := match q.filters.bind (fun f => f.platform) with
    | some ps =>
      if ps.length ≠ 0 then
        sql0 ++ " AND c.platform IN (" ++ platformInList ps ++ ")"
      else sql0
    | none => sql0
  let sql2 := match q.filters.bind (fun f => f.dateRange) with
    | some _ => sql1 ++ " AND m.created_at BETWEEN @start AND @end"
    | none => sql1
  let sql3 := match q.filters.bind (fun f => f.sender) with
    | some sd => if sd ≠ "" then sql2 ++ " AND m.sender = @sender" else sql2
    | none => sql2
  sql3 ++ " ORDER BY m.created_at DESC LIMIT @limit OFFSET @offset"

/-- The JavaScript `v || d` default for an optional number: both a
missing value and a zero value fall back to the default. -/
def jsNumOr (v : Option Int) (d : Int) : Int :=
  match v with
  | some n => if n = 0 then d else n
  | none => d

/-- The bound parameters of lines 225 to 250; in particular
`params.limit = query.options?.limit || 20` and
`params.offset = query.options?.offset || 0`. -/
def buildParams (q : SearchQuery) (matchQuery : String) : SqlParams :=
  { matchQuery := matchQuery,
    start := (q.filters.bind (fun f => f.dateRange)).map (fun d => d.start),
    stop := (q.filters.bind (fun f => f.dateRange)).map (fun d => d.stop),
    sender := match q.filters.bind (fun f => f.sender) with
      | some sd => if sd ≠ "" then some sd else none
      | none => none,
    limit := jsNumOr (q.options.bind (fun o => o.limit)) 20,
    offset := jsNumOr (q.options.bind (fun o => o.offset)) 0 }

/-- advancedSearch of lines 190 to 272.  The tokenizer runs outside the
try block, so its error propagates; if it yields no tokens the empty list
is returned at once, before any statement is built or executed; the
statement execution runs inside the try block, so any execution error is
logged and swallowed into an empty list; each returned row is spread with
a snippet over the token list, with maxLength 60 (line 264). -/
def advancedSearch (tok : String → Except DbErr String)
    (exec : String → SqlParams → Except DbErr (List SearchRow))
    (q : SearchQuery) : Except DbErr (List SearchHit) :=
  match tok q.keyword with
  | .error e => .error e
  | .ok tokens =>
    if tokens = "" then .ok []
    else
      match exec (buildSql q) (buildParams q (buildMatchQuery tokens)) with
      | .error _ => .ok []
      | .ok results =>
        let tokenList := tokens.splitOn " "
        .ok (results.map (fun row =>
          { row := row, snippet := generateSnippet row.content tokenList 60 }))

/- ---------------------------------------------------------------------
   Concrete data used by the witnesses and counterexamples.
   --------------------------------------------------------------------- -/

/-- A tokenizer that returns its input unchanged. -/
def tokId : String → Except DbErr String := fun str => Except.ok str

/-- A tokenizer that throws on every input. -/
def tokFail : String → Except DbErr String := fun _ => Except.error DbErr.tokenizeFault

/-- A fresh database: empty tables, rowid counters at 1, no insert yet on
the connection. -/
def emptyDb : DbState :=
  { conversations := [], messages := [], fts := [], convNextRowid := 1,
    msgNextRowid := 1, lastInsertRowid := 0 }

/-- A first message version. -/
def msgHello : Message :=
  { messageId := "m1", sender := "user", content := "hello", thinking := none,
    position := 0, createdAt := "t1", updatedAt := "t1" }

/-- A conversation holding the first message version. -/
def convV1 : Conversation :=
  { id := "c1", platform := "chatgpt", title := "t", url := "u",
    createdAt := "t1", updatedAt := "t1", messageCount := 1, messages := [msgHello] }

/-- The same message with changed content. -/
def msgWorld : Message := { msgHello with content := "world", updatedAt := "t2" }

/-- The same conversation saved again with the changed message. -/
def convV2 : Conversation := { convV1 with updatedAt := "t2", messages := [msgWorld] }

/-- The state after the first save on a fresh connection. -/
def dbAfterFirstSave : DbState := (saveConversation noFaults tokId emptyDb convV1).1

/-- The state after saving the changed conversation again on the same
connection. -/
def dbAfterSecondSave : DbState := (saveConversation noFaults tokId dbAfterFirstSave convV2).1

/-- The conversation row stored by the first save. -/
def oldCDemo : ConvRow :=
  { rowid := 1, id := "c1", platform := "chatgpt", title := "t", url := "u",
    created_at := "t1", updated_at := "t1", message_count := 1 }

/-- The message row stored by the first save. -/
def oldMDemo : MsgRow :=
  { rowid := 1, id := "m1", conversation_id := "c1", sender := "user",
    content := "hello", thinking := "", position := 0,
    created_at := "t1", updated_at := "t1" }

/-- A storage layer where the write of message m1 faults. -/
def faultsM1 : Faults :=
  { convFault := false, msgFault := fun mid => mid == "m1", ftsFault := fun _ => false }

/-- A storage layer where every index write faults. -/
def faultsFts : Faults :=
  { convFault := false, msgFault := fun _ => false, ftsFault := fun _ => true }

/-- A stored row a search executor could return. -/
def rowDemo : SearchRow :=
  { id := "m1", content := "hello", thinking := "", created_at := "t1",
    sender := "user", platform := "chatgpt", title := "t", conversation_id := "c1" }

/-- A query with an empty keyword and no filters. -/
def qEmpty : SearchQuery := { keyword := "", filters := none, options := none }

/-- A query with a keyword and no filters. -/
def qKw : SearchQuery := { keyword := "kw", filters := none, options := none }

/-- Pagination options explicitly requesting limit 0 and offset 0. -/
def optZero : SearchOptions := { limit := some 0, offset := some 0 }

/-- The query of optZero. -/
def qZero : SearchQuery := { keyword := "kw", filters := none, options := some optZero }

/-- A state with one conversation and two messages stored in descending
position order. -/
def dbTwoMsgs : DbState :=
  { conversations := [{ rowid := 1, id := "c1", platform := "chatgpt", title := "t",
                        url := "u", created_at := "t1", updated_at := "t1",
                        message_count := 2 }],
    messages := [{ rowid := 1, id := "m2", conversation_id := "c1", sender := "assistant",
                   content := "second", thinking := "", position := 2,
                   created_at := "t1", updated_at := "t1" },
                 { rowid := 2, id := "m1", conversation_id := "c1", sender := "user",
                   content := "first", thinking := "", position := 1,
                   created_at := "t1", updated_at := "t1" }],
    fts := [], convNextRowid := 2, msgNextRowid := 3, lastInsertRowid := 2 }

/-- The record getConversation assembles from dbTwoMsgs. -/
def convTwoMsgsOut : Conversation :=
  { id := "c1", platform := "chatgpt", title := "t", url := "u",
    createdAt := "t1", updatedAt := "t1", messageCount := 2,
    messages := [{ messageId := "m1", sender := "user", content := "first",
                   thinking := some "", position := 1, createdAt := "t1", updatedAt := "t1" },
                 { messageId := "m2", sender := "assistant", content := "second",
                   thinking := some "", position := 2, createdAt := "t1", updatedAt := "t1" }] }

/- ---------------------------------------------------------------------
   Supporting lemmas
   --------------------------------------------------------------------- -/

/-- When no keyword occurs in the lowered content, the scan of lines 281
to 291 finds nothing. -/
theorem findFirstMatch_eq_none_of (lowerContent : List Char) :
    ∀ (keywords : List String),
      (∀ kw ∈ keywords, jsIndexOf (kw.toList.map Char.toLower) lowerContent = none) →
      findFirstMatch lowerContent keywords = none := by
  intro keywords
  induction keywords with
  | nil => intro _; rfl
  | cons k ks ih =>
    intro h
    have hk := h k (List.mem_cons_self k ks)
    unfold findFirstMatch
    rw [List.foldl_cons]
    simp only [hk]
    exact ih (fun kw hkw => h kw (List.mem_cons_of_mem k hkw))

/- ---------------------------------------------------------------------
   Claim theorems
   --------------------------------------------------------------------- -/

/-- Claim C1 (refuting evidence, code bug): the index entry of a message
is NOT written exactly once at first insertion.  Saving a conversation,
then saving it again on the same connection with changed message content,
leaves the single message row with two FTS index entries: the DO UPDATE
arm of the upsert still reports changes = 1, and last_insert_rowid is the
(nonzero, stale) rowid of the previous insert, so the guard of line 117
is truthy on the update path as well and line 120 runs again, against the
intent stated in the comments of lines 114 to 124. -/
theorem upsert_duplicates_fts_entry :
    dbAfterFirstSave.fts = [{ rowid := 1, tokens := "hello" }]
    ∧ dbAfterSecondSave.fts =
        [{ rowid := 1, tokens := "hello" }, { rowid := 1, tokens := "world" }]
    ∧ dbAfterSecondSave.messages.length = 1 := by
  decide

/-- Claim C4: when the keyword tokenizes to no tokens, advancedSearch
returns the empty list as a normal result, for every query executor (the
executor is never consulted). -/
theorem advancedSearch_no_tokens_empty (tok : String → Except DbErr String)
    (exec : String → SqlParams → Except DbErr (List SearchRow)) (q : SearchQuery)
    (h : tok q.keyword = Except.ok "") :
    advancedSearch tok exec q = Except.ok [] := by
  unfold advancedSearch
  rw [h]
  simp

/-- Claim C4 witness: the empty keyword with an executor that would
return a row if it were consulted. -/
theorem advancedSearch_no_tokens_empty_witness :
    advancedSearch (fun _ => Except.ok "") (fun _ _ => Except.ok [rowDemo]) qEmpty =
      Except.ok [] :=
  advancedSearch_no_tokens_empty _ _ _ rfl

/-- Claim C5: when every statement execution fails, advancedSearch
swallows the failure and returns the empty list as a normal result; the
error is never propagated. -/
theorem advancedSearch_exec_failure_empty (tok : String → Except DbErr String)
    (exec : String → SqlParams → Except DbErr (List SearchRow)) (q : SearchQuery)
    (tks : String)
    (htok : tok q.keyword = Except.ok tks)
    (hex : ∀ sql p, ∃ e, exec sql p = Except.error e) :
    advancedSearch tok exec q = Except.ok [] := by
  unfold advancedSearch
  rw [htok]
  by_cases htk : tks = ""
  · simp [htk]
  · obtain ⟨e, he⟩ := hex (buildSql q) (buildParams q (buildMatchQuery tks))
    simp [htk, he]

/-- Claim C5 witness: a keyword query against an executor that always
throws. -/
theorem advancedSearch_exec_failure_empty_witness :
    advancedSearch tokId (fun _ _ => Except.error DbErr.queryFault) qKw = Except.ok [] :=
  advancedSearch_exec_failure_empty tokId _ qKw "kw" rfl
    (fun _ _ => ⟨DbErr.queryFault, rfl⟩)

/-- Claim C6: generateSnippet returns the empty string on empty content;
on nonempty content in which no keyword occurs case-insensitively it
returns the first maxLength characters, with a trailing ellipsis exactly
when the content is longer than maxLength. -/
theorem generateSnippet_empty_and_nomatch (content : String) (keywords : List String)
    (maxLength : Nat) :
    (content = "" → generateSnippet content keywords maxLength = "")
    ∧ (content ≠ "" →
        (∀ kw ∈ keywords,
          jsIndexOf (kw.toList.map Char.toLower) (content.toList.map Char.toLower) = none) →
        generateSnippet content keywords maxLength =
          String.mk (content.toList.take maxLength
            ++ (if maxLength < content.toList.length then ellipsis else []))) := by
  constructor
  · intro h
    simp [generateSnippet, h]
  · intro hc h
    unfold generateSnippet
    rw [if_neg hc]
    simp only [findFirstMatch_eq_none_of _ _ h]

/-- Claim C6 witness: six characters, a keyword that does not occur, and
maxLength 3. -/
theorem generateSnippet_empty_and_nomatch_witness :
    generateSnippet "abcdef" ["q"] 3 = "abc..." := by
  have h := (generateSnippet_empty_and_nomatch "abcdef" ["q"] 3).2 (by decide) (by decide)
  rw [h]
  rfl

/-- Claim C7 (counterexample): not every case-insensitive occurrence of
every keyword inside the window is wrapped in a highlight marker.  With
keywords ab and bc on content abc, the keyword bc occurs in the window,
but after the first replacement pass has wrapped ab the occurrence of bc
is split by the inserted markup: the output does not contain bc at all,
so no reading of wrapped-in-a-marker holds for it. -/
theorem generateSnippet_overlap_lost :
    jsIndexOf ("bc".toList) ("abc".toList) = some 1
    ∧ jsIndexOf ("bc".toList) ((generateSnippet "abc" ["ab", "bc"] 60).toList) = none := by
  decide

/-- Claim C7 (amended): on content with a case-insensitive keyword match,
generateSnippet extracts the window [s, e) of the content where s is the
match index minus maxLength / 2 clamped at 0 and then snapped to just
after the preceding space when that space is within the 20-character
tolerance, and e is the match index plus the matched keyword length plus
maxLength / 2 clamped to the content length and then snapped to the
following space within the same tolerance; it then applies, for each
keyword in order, one global case-insensitive wrapping pass to the
accumulated text (so later keywords match against already inserted markup
and overlapping occurrences may be lost), and it prefixes an ellipsis
exactly when s is positive and suffixes one exactly when e is short of
the content length. -/
theorem generateSnippet_window (content : String) (keywords : List String)
    (maxLength firstIndex : Nat) (matchedKeyword : String)
    (hc : content ≠ "")
    (h : findFirstMatch (content.toList.map Char.toLower) keywords =
          some (firstIndex, matchedKeyword)) :
    generateSnippet content keywords maxLength =
      (let cs := content.toList
       let start0 := firstIndex - maxLength / 2
       let s :=
         if 0 < start0 then
           match lastIndexOfSpace cs start0 with
           | some si => if 0 < si ∧ start0 - si < 20 then si + 1 else start0
           | none => start0
         else start0
       let end0 := min cs.length (firstIndex + matchedKeyword.toList.length + maxLength / 2)
       let e :=
         if end0 < cs.length then
           match indexOfSpaceFrom cs end0 with
           | some si => if 0 < si ∧ si - end0 < 20 then si else end0
           | none => end0
         else end0
       String.mk ((if 0 < s then ellipsis else [])
         ++ highlightAll keywords ((cs.take e).drop s)
         ++ (if e < cs.length then ellipsis else []))) := by
  unfold generateSnippet
  rw [if_neg hc]
  simp only [h]
  rfl

/-- Claim C7 witness: keyword b inside abc with maxLength 4. -/
theorem generateSnippet_window_witness :
    generateSnippet "abc" ["b"] 4 =
      (let cs := ("abc").toList
       let start0 := 1 - 4 / 2
       let s :=
         if 0 < start0 then
           match lastIndexOfSpace cs start0 with
           | some si => if 0 < si ∧ start0 - si < 20 then si + 1 else start0
           | none => start0
         else start0
       let end0 := min cs.length (1 + ("b").toList.length + 4 / 2)
       let e :=
         if end0 < cs.length then
           match indexOfSpaceFrom cs end0 with
           | some si => if 0 < si ∧ si - end0 < 20 then si else end0
           | none => end0
         else end0
       String.mk ((if 0 < s then ellipsis else [])
         ++ highlightAll ["b"] ((cs.take e).drop s)
         ++ (if e < cs.length then ellipsis else []))) :=
  generateSnippet_window "abc" ["b"] 4 1 "b" (by decide) (by decide)

/-- On a successful reindex body, every row was tokenized successfully:
the body has no per-row recovery. -/
theorem reindexBody_ok_tok_ok (tok : String → Except DbErr String) :
    ∀ (ps : List (Nat × String)) (s s1 : DbState),
      reindexBody tok s ps = Except.ok s1 → ∀ p ∈ ps, ∃ t, tok p.2 = Except.ok t := by
  intro ps
  induction ps with
  | nil => intro s s1 _ p hp; cases hp
  | cons q rest ih =>
    intro s s1 hok p hp
    obtain ⟨rid, content⟩ := q
    unfold reindexBody at hok
    cases htok : tok content with
    | error e => rw [htok] at hok; cases hok
    | ok tokens =>
      rw [htok] at hok
      rcases List.mem_cons.mp hp with h1 | h2
      · subst h1; exact ⟨tokens, htok⟩
      · exact ih _ _ hok p h2

/-- Claim C2 (counterexample): a tokenization fault on a single message
is not skipped with a warning; it aborts the whole bulk operation, which
reports the error instead of success, and the stored state (one message,
one index entry) is left unchanged by the rollback. -/
theorem reindex_tokenize_fault_aborts :
    dbAfterFirstSave.messages.length = 1
    ∧ (reindexMessages tokFail dbAfterFirstSave).2 = Except.error DbErr.tokenizeFault
    ∧ (reindexMessages tokFail dbAfterFirstSave).1 = dbAfterFirstSave := by
  decide

/-- Claim C2 (amended): reindexMessages runs all rows inside one
transaction with no per-row recovery.  On success it reports success with
count equal to the number of stored messages; on any error the state is
rolled back unchanged; and a tokenization fault on any message forces
the whole operation to abort with an error. -/
theorem reindexMessages_transactional (tok : String → Except DbErr String) (s : DbState) :
    (∀ r, (reindexMessages tok s).2 = Except.ok r →
      r.success = true ∧ r.count = s.messages.length)
    ∧ (∀ e, (reindexMessages tok s).2 = Except.error e → (reindexMessages tok s).1 = s)
    ∧ ((∃ m ∈ s.messages, ∃ e, tok m.content = Except.error e) →
        ∃ e, (reindexMessages tok s).2 = Except.error e) := by
  refine ⟨?_, ?_, ?_⟩
  · intro r hr
    unfold reindexMessages at hr
    cases hbody : reindexBody tok s (s.messages.map (fun m => (m.rowid, m.content))) with
    | ok s1 =>
      rw [hbody] at hr
      simp only at hr
      cases hr
      simp
    | error e => rw [hbody] at hr; cases hr
  · intro e he
    unfold reindexMessages at he ⊢
    cases hbody : reindexBody tok s (s.messages.map (fun m => (m.rowid, m.content))) with
    | ok s1 => rw [hbody] at he; simp at he
    | error e1 => rfl
  · rintro ⟨m, hm, e, he⟩
    cases hbody : reindexBody tok s (s.messages.map (fun m => (m.rowid, m.content))) with
    | ok s1 =>
      obtain ⟨t, ht⟩ := reindexBody_ok_tok_ok tok _ _ _ hbody (m.rowid, m.content)
        (List.mem_map_of_mem (fun m => (m.rowid, m.content)) hm)
      rw [he] at ht
      cases ht
    | error e1 =>
      refine ⟨e1, ?_⟩
      unfold reindexMessages
      rw [hbody]

/-- Claim C2 witness (for the amended transactional statement): the
tokenization fault of the counterexample state rolls the state back
unchanged. -/
theorem reindexMessages_transactional_witness :
    (reindexMessages tokFail dbAfterFirstSave).1 = dbAfterFirstSave :=
  (reindexMessages_transactional tokFail dbAfterFirstSave).2.1
    DbErr.tokenizeFault (by decide)

/-- On a successful message loop, no processed message hit a storage
fault: a faulting write always aborts the body. -/
theorem saveMessagesBody_ok_no_msgFault (f : Faults) (tok : String → Except DbErr String)
    (convId : String) :
    ∀ (ms : List Message) (s s1 : DbState),
      saveMessagesBody f tok convId s ms = Except.ok s1 →
      ∀ m ∈ ms, f.msgFault m.messageId = false := by
  intro ms
  induction ms with
  | nil => intro s s1 _ m hm; cases hm
  | cons m0 rest ih =>
    intro s s1 hok m hm
    unfold saveMessagesBody at hok
    by_cases hf : f.msgFault m0.messageId = true
    · rw [if_pos hf] at hok; exact Except.noConfusion hok
    · rw [if_neg hf] at hok
      rcases List.mem_cons.mp hm with h1 | h2
      · subst h1; simpa using hf
      · split at hok
        · split at hok
          · exact Except.noConfusion hok
          · split at hok
            · exact Except.noConfusion hok
            · exact ih _ _ hok m h2
        · exact ih _ _ hok m h2

/-- Lookup by id through a map that rewrites only rows of a given id,
with an id-preserving update. -/
theorem findMsgRow_map_update (l : List MsgRow) (tid mid : String) (u : MsgRow → MsgRow)
    (hid : ∀ r, (u r).id = r.id) :
    findMsgRow (l.map (fun r => if r.id == tid then u r else r)) mid
      = (findMsgRow l mid).map (fun r => if r.id == tid then u r else r) := by
  unfold findMsgRow
  rw [List.find?_map]
  have hp : ((fun r : MsgRow => r.id == mid) ∘ (fun r => if r.id == tid then u r else r))
      = fun r : MsgRow => r.id == mid := by
    funext r
    by_cases h : r.id == tid
    · simp [Function.comp, h, hid r]
    · simp [Function.comp, h]
  rw [hp]

/-- Lookup by id through a map that rewrites only rows of a given id,
conversations version. -/
theorem findConvRow_map_update (l : List ConvRow) (tid mid : String) (u : ConvRow → ConvRow)
    (hid : ∀ r, (u r).id = r.id) :
    findConvRow (l.map (fun r => if r.id == tid then u r else r)) mid
      = (findConvRow l mid).map (fun r => if r.id == tid then u r else r) := by
  unfold findConvRow
  rw [List.find?_map]
  have hp : ((fun r : ConvRow => r.id == mid) ∘ (fun r => if r.id == tid then u r else r))
      = fun r : ConvRow => r.id == mid := by
    funext r
    by_cases h : r.id == tid
    · simp [Function.comp, h, hid r]
    · simp [Function.comp, h]
  rw [hp]

/-- Appending a row with a different id does not change a lookup. -/
theorem findMsgRow_append_other (l : List MsgRow) (a : MsgRow) (mid : String)
    (h : ¬ a.id = mid) :
    findMsgRow (l ++ [a]) mid = findMsgRow l mid := by
  unfold findMsgRow
  rw [List.find?_append]
  have hfalse : (a.id == mid) = false := beq_eq_false_iff_ne.mpr h
  have ha : List.find? (fun r => r.id == mid) [a] = none := by
    simp [List.find?, hfalse]
  rw [ha]
  cases List.find? (fun r : MsgRow => r.id == mid) l <;> rfl

/-- When every index write at a positive rowid faults and the message
rowid counter is positive (SQLite allocates rowids from 1), a successful
message loop cannot have processed any message that was absent from the
table: the insert arm of a new message always attempts an FTS index
write at its fresh positive rowid, which faults and aborts the body. -/
theorem saveMessagesBody_ok_no_new_msg (f : Faults) (tok : String → Except DbErr String)
    (cid : String) (hfts : ∀ rid, 0 < rid → f.ftsFault rid = true) :
    ∀ (ms : List Message) (s s1 : DbState), 0 < s.msgNextRowid →
      saveMessagesBody f tok cid s ms = Except.ok s1 →
      ∀ m ∈ ms, findMsgRow s.messages m.messageId ≠ none := by
  intro ms
  induction ms with
  | nil => intro s s1 _ _ m hm; cases hm
  | cons m0 rest ih =>
    intro s s1 hpos hok m hm
    unfold saveMessagesBody at hok
    split at hok
    · exact Except.noConfusion hok
    · cases hf : findMsgRow s.messages m0.messageId with
      | none =>
        exfalso
        have hch : (runInsertMsg s cid m0).2.changes = 1 := by
          unfold runInsertMsg; rw [hf]
        have hlr : (runInsertMsg s cid m0).2.lastInsertRowid = s.msgNextRowid := by
          unfold runInsertMsg; rw [hf]
        rw [hch, hlr] at hok
        rw [if_pos ⟨Nat.one_pos, Nat.pos_iff_ne_zero.mp hpos⟩] at hok
        split at hok
        · exact Except.noConfusion hok
        · rw [if_pos (hfts s.msgNextRowid hpos)] at hok
          exact Except.noConfusion hok
      | some r0 =>
        rcases List.mem_cons.mp hm with h1 | h2
        · subst h1
          rw [hf]
          exact fun hh => Option.noConfusion hh
        · have hch : (runInsertMsg s cid m0).2.changes = 1 := by
            unfold runInsertMsg; rw [hf]
          have hlr : (runInsertMsg s cid m0).2.lastInsertRowid = s.lastInsertRowid := by
            unfold runInsertMsg; rw [hf]
          have hst : (runInsertMsg s cid m0).1
              = { s with messages := s.messages.map (fun r =>
                    if r.id == m0.messageId then updatedMsgRow r m0 else r) } := by
            unfold runInsertMsg; rw [hf]
          rw [hch, hlr, hst] at hok
          by_cases hg : s.lastInsertRowid = 0
          · rw [if_neg (fun hcond => hcond.2 hg)] at hok
            have hrest := ih
              { s with messages := s.messages.map (fun r =>
                  if r.id == m0.messageId then updatedMsgRow r m0 else r) }
              s1 hpos hok m h2
            intro hnone
            apply hrest
            rw [findMsgRow_map_update s.messages m0.messageId m.messageId
              (fun r => updatedMsgRow r m0) (fun r => rfl), hnone]
            rfl
          · exfalso
            rw [if_pos ⟨Nat.one_pos, hg⟩] at hok
            split at hok
            · exact Except.noConfusion hok
            · rw [if_pos (hfts s.lastInsertRowid (Nat.pos_of_ne_zero hg))] at hok
              exact Except.noConfusion hok

/-- Claim C3: saveConversation is atomic.  Whenever the save reports an
error the state is left exactly as before the call; a storage fault on
the conversation write, on any message write, or on the index write of a
new message (every index write faulting, with a message to insert and
the rowid counter positive as SQLite keeps it) forces an error report;
and a successful save reports the ok status. -/
theorem saveConversation_atomic (f : Faults) (tok : String → Except DbErr String)
    (s : DbState) (c : Conversation) :
    (∀ e, (saveConversation f tok s c).2 = Except.error e →
      (saveConversation f tok s c).1 = s)
    ∧ ((f.convFault = true
        ∨ (∃ m ∈ c.messages, f.msgFault m.messageId = true)
        ∨ (0 < s.msgNextRowid ∧ (∀ rid, 0 < rid → f.ftsFault rid = true)
            ∧ ∃ m ∈ c.messages, findMsgRow s.messages m.messageId = none)) →
        ∃ e, (saveConversation f tok s c).2 = Except.error e)
    ∧ (∀ r, (saveConversation f tok s c).2 = Except.ok r → r = SaveStatus.statusOk) := by
  refine ⟨?_, ?_, ?_⟩
  · intro e he
    unfold saveConversation at he ⊢
    cases hbody : (if f.convFault then Except.error DbErr.storageFault
                   else saveMessagesBody f tok c.id (upsertConversation s c) c.messages) with
    | ok s1 => rw [hbody] at he; simp at he
    | error e1 => rfl
  · intro hfault
    cases hbody : (if f.convFault then Except.error DbErr.storageFault
                   else saveMessagesBody f tok c.id (upsertConversation s c) c.messages) with
    | ok s1 =>
      exfalso
      by_cases hcf : f.convFault = true
      · rw [if_pos hcf] at hbody; exact Except.noConfusion hbody
      · rw [if_neg hcf] at hbody
        rcases hfault with h | ⟨m, hm, hf⟩ | ⟨hpos, hfts, m, hm, hnew⟩
        · exact hcf h
        · have hff := saveMessagesBody_ok_no_msgFault f tok c.id c.messages _ _ hbody m hm
          rw [hff] at hf
          exact Bool.noConfusion hf
        · have hposU : 0 < (upsertConversation s c).msgNextRowid := by
            have hU : (upsertConversation s c).msgNextRowid = s.msgNextRowid := by
              unfold upsertConversation
              cases findConvRow s.conversations c.id <;> rfl
            rw [hU]; exact hpos
          have hmsgU : (upsertConversation s c).messages = s.messages := by
            unfold upsertConversation
            cases findConvRow s.conversations c.id <;> rfl
          have hne := saveMessagesBody_ok_no_new_msg f tok c.id hfts c.messages
            (upsertConversation s c) s1 hposU hbody m hm
          rw [hmsgU, hnew] at hne
          exact hne rfl
    | error e1 =>
      refine ⟨e1, ?_⟩
      unfold saveConversation
      rw [hbody]
  · intro r _
    cases r
    rfl

/-- Claim C3 witness: a faulting message write, and a faulting index
write under a new message, each make the save report an error and leave
the fresh database unchanged. -/
theorem saveConversation_atomic_witness :
    ((∃ e, (saveConversation faultsM1 tokId emptyDb convV1).2 = Except.error e)
      ∧ (saveConversation faultsM1 tokId emptyDb convV1).1 = emptyDb)
    ∧ ((∃ e, (saveConversation faultsFts tokId emptyDb convV1).2 = Except.error e)
      ∧ (saveConversation faultsFts tokId emptyDb convV1).1 = emptyDb) := by
  have h1 := saveConversation_atomic faultsM1 tokId emptyDb convV1
  obtain ⟨e1, he1⟩ := h1.2.1 (Or.inr (Or.inl ⟨msgHello, by decide, by decide⟩))
  have h2 := saveConversation_atomic faultsFts tokId emptyDb convV1
  obtain ⟨e2, he2⟩ := h2.2.1 (Or.inr (Or.inr
    ⟨by decide, fun rid _ => rfl, msgHello, by decide, by decide⟩))
  exact ⟨⟨⟨e1, he1⟩, h1.1 e1 he1⟩, ⟨⟨e2, he2⟩, h2.1 e2 he2⟩⟩

/-- Ordered insertion permutes: the result holds the new row and the old
ones. -/
theorem insertByPos_perm (m : MsgRow) (l : List MsgRow) :
    (insertByPos m l).Perm (m :: l) := by
  induction l with
  | nil => exact List.Perm.refl _
  | cons x xs ih =>
    unfold insertByPos
    split
    · exact List.Perm.refl _
    · exact (ih.cons x).trans (List.Perm.swap m x xs)

/-- The embedding of ORDER BY position ASC permutes the rows. -/
theorem sortByPos_perm (l : List MsgRow) : (sortByPos l).Perm l := by
  induction l with
  | nil => exact List.Perm.refl _
  | cons x xs ih => exact (insertByPos_perm x (sortByPos xs)).trans (ih.cons x)

/-- Ordered insertion preserves sortedness by position. -/
theorem insertByPos_pairwise (m : MsgRow) (l : List MsgRow)
    (h : l.Pairwise (fun a b => a.position ≤ b.position)) :
    (insertByPos m l).Pairwise (fun a b => a.position ≤ b.position) := by
  induction l with
  | nil => simp [insertByPos]
  | cons x xs ih =>
    rw [List.pairwise_cons] at h
    obtain ⟨hx, hxs⟩ := h
    unfold insertByPos
    split
    · rename_i hle
      rw [List.pairwise_cons]
      refine ⟨?_, ?_⟩
      · intro y hy
        rcases List.mem_cons.mp hy with h1 | h2
        · subst h1; exact hle
        · exact le_trans hle (hx y h2)
      · rw [List.pairwise_cons]; exact ⟨hx, hxs⟩
    · rename_i hgt
      rw [List.pairwise_cons]
      refine ⟨?_, ?_⟩
      · intro y hy
        rcases List.mem_cons.mp ((insertByPos_perm m xs).mem_iff.mp hy) with h1 | h2
        · subst h1; exact le_of_not_le hgt
        · exact hx y h2
      · exact ih hxs

/-- The embedding of ORDER BY position ASC sorts. -/
theorem sortByPos_pairwise (l : List MsgRow) :
    (sortByPos l).Pairwise (fun a b => a.position ≤ b.position) := by
  induction l with
  | nil => simp [sortByPos]
  | cons x xs ih => exact insertByPos_pairwise x _ ih

/-- Claim C8: getConversation returns the not-found signal exactly when
no stored conversation carries the id, and otherwise its message list is
ordered ascending by position and is a permutation of the stored rows of
that conversation, whatever order they were inserted in. -/
theorem getConversation_ordered (s : DbState) (id : String) :
    (getConversation s id = none ↔ ∀ cr ∈ s.conversations, ¬ cr.id = id)
    ∧ (∀ conv, getConversation s id = some conv →
        conv.messages.Pairwise (fun a b => a.position ≤ b.position)
        ∧ conv.messages.Perm
            ((s.messages.filter (fun r => r.conversation_id == id)).map msgRowToMessage)) := by
  have hiff : findConvRow s.conversations id = none ↔ ∀ cr ∈ s.conversations, ¬ cr.id = id := by
    simp [findConvRow, List.find?_eq_none]
  refine ⟨⟨?_, ?_⟩, ?_⟩
  · intro h
    apply hiff.mp
    cases hfind : findConvRow s.conversations id with
    | none => rfl
    | some cr =>
      unfold getConversation at h
      rw [hfind] at h
      exact Option.noConfusion h
  · intro hall
    unfold getConversation
    rw [hiff.mpr hall]
  · intro conv hconv
    unfold getConversation at hconv
    cases hfind : findConvRow s.conversations id with
    | none => rw [hfind] at hconv; exact Option.noConfusion hconv
    | some cr =>
      rw [hfind] at hconv
      simp only [Option.some.injEq] at hconv
      subst hconv
      refine ⟨?_, ?_⟩
      · simp only []
        rw [List.pairwise_map]
        exact sortByPos_pairwise (s.messages.filter (fun r => r.conversation_id == id))
      · exact (sortByPos_perm (s.messages.filter (fun r => r.conversation_id == id))).map
          msgRowToMessage

/-- Claim C8 witness: two rows stored in descending position order come
back ascending. -/
theorem getConversation_ordered_witness :
    convTwoMsgsOut.messages.Pairwise (fun a b => a.position ≤ b.position)
    ∧ convTwoMsgsOut.messages.Perm
        ((dbTwoMsgs.messages.filter (fun r => r.conversation_id == "c1")).map msgRowToMessage) :=
  (getConversation_ordered dbTwoMsgs "c1").2 convTwoMsgsOut (by decide)

/-- Claim C10: a falsy supplied limit — in particular an explicit 0 —
is replaced by the default 20, so the statement is executed with limit
parameter 20 and the caller gets exactly what a caller asking for 20
gets; a falsy offset becomes 0. -/
theorem advancedSearch_limit_default (tok : String → Except DbErr String)
    (exec : String → SqlParams → Except DbErr (List SearchRow))
    (q : SearchQuery) (o : SearchOptions) (m : String)
    (hopt : q.options = some o) :
    ((o.limit = some 0 ∨ o.limit = none) →
      (buildParams q m).limit = 20
      ∧ advancedSearch tok exec q =
          advancedSearch tok exec { q with options := some { o with limit := some 20 } })
    ∧ ((o.offset = some 0 ∨ o.offset = none) → (buildParams q m).offset = 0) := by
  obtain ⟨kw, fil, opts⟩ := q
  simp only at hopt
  subst hopt
  refine ⟨?_, ?_⟩
  · intro hl
    have hbp : ∀ mq, buildParams ⟨kw, fil, some o⟩ mq =
        buildParams ⟨kw, fil, some { o with limit := some 20 }⟩ mq := by
      intro mq
      rcases hl with h | h <;> simp [buildParams, jsNumOr, h]
    refine ⟨?_, ?_⟩
    · rcases hl with h | h <;> simp [buildParams, jsNumOr, h]
    · simp only [advancedSearch]
      cases htok : tok kw with
      | error e => rfl
      | ok tokens =>
        by_cases htk : tokens = ""
        · simp [htk]
        · simp only [hbp]
          rfl
  · intro ho
    rcases ho with h | h <;> simp [buildParams, jsNumOr, h]

/-- Claim C10 witness: an explicit limit 0 is executed as limit 20, and
the search result is that of the same query with limit 20. -/
theorem advancedSearch_limit_default_witness :
    (buildParams qZero "mq").limit = 20
    ∧ advancedSearch tokId (fun _ _ => Except.ok []) qZero =
        advancedSearch tokId (fun _ _ => Except.ok [])
          { qZero with options := some { optZero with limit := some 20 } } :=
  (advancedSearch_limit_default tokId (fun _ _ => Except.ok []) qZero optZero "mq" rfl).1
    (Or.inl rfl)

/-- An upsert of one message leaves lookups of other message ids
unchanged. -/
theorem runInsertMsg_other (s : DbState) (cid : String) (m : Message) (mid : String)
    (h : ¬ m.messageId = mid) :
    findMsgRow ((runInsertMsg s cid m).1).messages mid = findMsgRow s.messages mid := by
  unfold runInsertMsg
  cases hf : findMsgRow s.messages m.messageId with
  | some r0 =>
    simp only []
    rw [findMsgRow_map_update s.messages m.messageId mid
      (fun r => updatedMsgRow r m) (fun r => rfl)]
    cases hg : findMsgRow s.messages mid with
    | none => rfl
    | some r1 =>
      have hr1 : r1.id = mid := by simpa using List.find?_some hg
      have hne : (r1.id == m.messageId) = false := by
        rw [hr1]
        exact beq_eq_false_iff_ne.mpr (fun hh => h hh.symm)
      have hnot : ¬ (r1.id == m.messageId) = true := by
        rw [hne]
        exact Bool.false_ne_true
      simp only [Option.map_some', if_neg hnot]
  | none =>
    simp only []
    exact findMsgRow_append_other _ _ _ h

/-- The message loop never touches the conversations table. -/
theorem saveMessagesBody_conversations (f : Faults) (tok : String → Except DbErr String)
    (cid : String) :
    ∀ (ms : List Message) (s s1 : DbState),
      saveMessagesBody f tok cid s ms = Except.ok s1 →
      s1.conversations = s.conversations := by
  intro ms
  induction ms with
  | nil => intro s s1 h; cases h; rfl
  | cons m rest ih =>
    intro s s1 hok
    unfold saveMessagesBody at hok
    split at hok
    · exact Except.noConfusion hok
    · split at hok
      · split at hok
        · exact Except.noConfusion hok
        · split at hok
          · exact Except.noConfusion hok
          · rw [ih _ _ hok]
            unfold insertFts runInsertMsg
            cases findMsgRow s.messages m.messageId <;> rfl
      · rw [ih _ _ hok]
        unfold runInsertMsg
        cases findMsgRow s.messages m.messageId <;> rfl

/-- Processing messages that all carry other ids leaves the lookup of a
given id unchanged. -/
theorem saveMessagesBody_other (f : Faults) (tok : String → Except DbErr String)
    (cid mid : String) :
    ∀ (ms : List Message) (s s1 : DbState),
      (∀ m ∈ ms, ¬ m.messageId = mid) →
      saveMessagesBody f tok cid s ms = Except.ok s1 →
      findMsgRow s1.messages mid = findMsgRow s.messages mid := by
  intro ms
  induction ms with
  | nil => intro s s1 _ h; cases h; rfl
  | cons m rest ih =>
    intro s s1 hne hok
    have hm : ¬ m.messageId = mid := hne m (List.mem_cons_self m rest)
    have hrest : ∀ x ∈ rest, ¬ x.messageId = mid :=
      fun x hx => hne x (List.mem_cons_of_mem m hx)
    unfold saveMessagesBody at hok
    split at hok
    · exact Except.noConfusion hok
    · split at hok
      · split at hok
        · exact Except.noConfusion hok
        · split at hok
          · exact Except.noConfusion hok
          · rw [ih _ _ hrest hok]
            exact runInsertMsg_other s cid m mid hm
      · rw [ih _ _ hrest hok]
        exact runInsertMsg_other s cid m mid hm

/-- One successful upsert of an existing message id leaves its row with
exactly content, thinking, position and updated_at replaced. -/
theorem saveMessagesBody_single_update (f : Faults) (tok : String → Except DbErr String)
    (cid : String) (m : Message) (s s1 : DbState) (oldM : MsgRow)
    (hf : findMsgRow s.messages m.messageId = some oldM)
    (hok : saveMessagesBody f tok cid s [m] = Except.ok s1) :
    findMsgRow s1.messages m.messageId = some (updatedMsgRow oldM m) := by
  have hrun : findMsgRow ((runInsertMsg s cid m).1).messages m.messageId
      = some (updatedMsgRow oldM m) := by
    unfold runInsertMsg
    rw [hf]
    simp only []
    rw [findMsgRow_map_update s.messages m.messageId m.messageId
      (fun r => updatedMsgRow r m) (fun r => rfl)]
    rw [hf]
    have hf2 : s.messages.find? (fun r => r.id == m.messageId) = some oldM := hf
    have hb : (oldM.id == m.messageId) = true :=
      List.find?_some (p := fun r : MsgRow => r.id == m.messageId) hf2
    have heq : oldM.id = m.messageId := by simpa using hb
    simp [heq]
  unfold saveMessagesBody at hok
  split at hok
  · exact Except.noConfusion hok
  · split at hok
    · split at hok
      · exact Except.noConfusion hok
      · split at hok
        · exact Except.noConfusion hok
        · unfold saveMessagesBody at hok
          cases hok
          exact hrun
    · unfold saveMessagesBody at hok
      cases hok
      exact hrun

/-- The message loop splits over an append like sequential composition. -/
theorem saveMessagesBody_append (f : Faults) (tok : String → Except DbErr String)
    (cid : String) :
    ∀ (as bs : List Message) (s : DbState),
      saveMessagesBody f tok cid s (as ++ bs)
        = (saveMessagesBody f tok cid s as).bind
            (fun s1 => saveMessagesBody f tok cid s1 bs) := by
  intro as
  induction as with
  | nil => intro bs s; rfl
  | cons m rest ih =>
    intro bs s
    simp only [List.cons_append]
    simp only [saveMessagesBody]
    by_cases h1 : f.msgFault m.messageId = true
    · simp only [if_pos h1]; rfl
    · simp only [if_neg h1]
      by_cases h2 : 0 < (runInsertMsg s cid m).2.changes
          ∧ (runInsertMsg s cid m).2.lastInsertRowid ≠ 0
      · simp only [if_pos h2]
        cases htok : tok m.content with
        | error e => rfl
        | ok tokens =>
          by_cases h3 : f.ftsFault (runInsertMsg s cid m).2.lastInsertRowid = true
          · simp only [if_pos h3]; rfl
          · simp only [if_neg h3]
            exact ih bs _
      · simp only [if_neg h2]
        exact ih bs _

/-- Claim C9: a second save of an existing conversation id updates only
title, url, updated_at and message_count of the conversation row, leaving
platform and created_at as first created; and for a message whose id
already exists, the save updates only content, thinking, position and
updated_at of its row, leaving rowid, sender, conversation_id and
created_at as first created. -/
theorem saveConversation_upsert_frame (f : Faults) (tok : String → Except DbErr String)
    (s : DbState) (c : Conversation) (oldC : ConvRow) (m : Message) (oldM : MsgRow)
    (r : SaveStatus)
    (hC : findConvRow s.conversations c.id = some oldC)
    (hM : findMsgRow s.messages m.messageId = some oldM)
    (hm : m ∈ c.messages)
    (hnd : (c.messages.map Message.messageId).Nodup)
    (hok : (saveConversation f tok s c).2 = Except.ok r) :
    findConvRow ((saveConversation f tok s c).1).conversations c.id
      = some { oldC with
               title := c.title,
               url := c.url,
               updated_at := c.updatedAt,
               message_count := c.messages.length }
    ∧ findMsgRow ((saveConversation f tok s c).1).messages m.messageId
      = some { oldM with
               content := m.content,
               thinking := m.thinking.getD "",
               position := m.position,
               updated_at := m.updatedAt } := by
  unfold saveConversation at hok ⊢
  cases hbody : (if f.convFault then Except.error DbErr.storageFault
                 else saveMessagesBody f tok c.id (upsertConversation s c) c.messages) with
  | error e => rw [hbody] at hok; exact Except.noConfusion hok
  | ok st =>
    by_cases hcf : f.convFault = true
    · rw [if_pos hcf] at hbody; exact Except.noConfusion hbody
    · rw [if_neg hcf] at hbody
      obtain ⟨pre, post, hsplit⟩ := List.append_of_mem hm
      have hnotin : m.messageId ∉ pre.map Message.messageId
          ∧ m.messageId ∉ post.map Message.messageId := by
        rw [hsplit, List.map_append, List.map_cons, List.nodup_middle,
          List.nodup_cons, List.mem_append] at hnd
        exact ⟨fun h => hnd.1 (Or.inl h), fun h => hnd.1 (Or.inr h)⟩
      have hpre : ∀ x ∈ pre, ¬ x.messageId = m.messageId :=
        fun x hx he => hnotin.1 (he ▸ List.mem_map_of_mem Message.messageId hx)
      have hpost : ∀ x ∈ post, ¬ x.messageId = m.messageId :=
        fun x hx he => hnotin.2 (he ▸ List.mem_map_of_mem Message.messageId hx)
      rw [hsplit, saveMessagesBody_append] at hbody
      cases hA : saveMessagesBody f tok c.id (upsertConversation s c) pre with
      | error e => rw [hA] at hbody; exact Except.noConfusion hbody
      | ok sA =>
        rw [hA] at hbody
        change saveMessagesBody f tok c.id sA (m :: post) = Except.ok st at hbody
        have hmp : (m :: post) = [m] ++ post := rfl
        rw [hmp, saveMessagesBody_append] at hbody
        cases hB : saveMessagesBody f tok c.id sA [m] with
        | error e => rw [hB] at hbody; exact Except.noConfusion hbody
        | ok sB =>
          rw [hB] at hbody
          change saveMessagesBody f tok c.id sB post = Except.ok st at hbody
          have hup : findConvRow (upsertConversation s c).conversations c.id
              = some { oldC with
                       title := c.title,
                       url := c.url,
                       updated_at := c.updatedAt,
                       message_count := c.messages.length } := by
            unfold upsertConversation
            rw [hC]
            simp only []
            rw [findConvRow_map_update s.conversations c.id c.id
              (fun r => { r with
                          title := c.title,
                          url := c.url,
                          updated_at := c.updatedAt,
                          message_count := c.messages.length })
              (fun r => rfl)]
            rw [hC]
            have hC2 : s.conversations.find? (fun r => r.id == c.id) = some oldC := hC
            have hb : (oldC.id == c.id) = true :=
              List.find?_some (p := fun r : ConvRow => r.id == c.id) hC2
            have heq : oldC.id = c.id := by simpa using hb
            simp [heq]
          have hconv : st.conversations = (upsertConversation s c).conversations := by
            rw [saveMessagesBody_conversations f tok c.id post sB st hbody,
              saveMessagesBody_conversations f tok c.id [m] sA sB hB,
              saveMessagesBody_conversations f tok c.id pre (upsertConversation s c) sA hA]
          have h0 : findMsgRow (upsertConversation s c).messages m.messageId
              = findMsgRow s.messages m.messageId := by
            unfold upsertConversation
            cases findConvRow s.conversations c.id <;> rfl
          have hMA : findMsgRow sA.messages m.messageId = some oldM := by
            rw [saveMessagesBody_other f tok c.id m.messageId pre _ _ hpre hA, h0, hM]
          have hMB : findMsgRow sB.messages m.messageId = some (updatedMsgRow oldM m) :=
            saveMessagesBody_single_update f tok c.id m sA sB oldM hMA hB
          have hMT : findMsgRow st.messages m.messageId = some (updatedMsgRow oldM m) := by
            rw [saveMessagesBody_other f tok c.id m.messageId post _ _ hpost hbody, hMB]
          constructor
          · show findConvRow st.conversations c.id = _
            rw [hconv, hup]
          · show findMsgRow st.messages m.messageId = _
            rw [hMT]
            rfl

/-- Claim C9 witness: saving the stored conversation again with changed
message content updates exactly the mutable columns. -/
theorem saveConversation_upsert_frame_witness :
    findConvRow ((saveConversation noFaults tokId dbAfterFirstSave convV2).1).conversations
        convV2.id
      = some { oldCDemo with
               title := convV2.title,
               url := convV2.url,
               updated_at := convV2.updatedAt,
               message_count := convV2.messages.length }
    ∧ findMsgRow ((saveConversation noFaults tokId dbAfterFirstSave convV2).1).messages
        msgWorld.messageId
      = some { oldMDemo with
               content := msgWorld.content,
               thinking := msgWorld.thinking.getD "",
               position := msgWorld.position,
               updated_at := msgWorld.updatedAt } :=
  saveConversation_upsert_frame noFaults tokId dbAfterFirstSave convV2 oldCDemo
    msgWorld oldMDemo SaveStatus.statusOk
    (by decide) (by decide) (by decide) (by decide) (by decide)

end ElectronAIBrowser
